import Mathlib

/-!
Shallow embedding of `src/main.py` of the `ec2_manager` repository.

The program is orchestration glue around the `fabric` remote-shell client:
a `HostAgent` holds a group of host sessions and applies uploads
(`update_files` / `update_files_async`) or commands
(`run_command` / `run_command_async`) to every host.

Remote effects are modelled by oracles:
* `fails : α → β → Bool` — whether `host.put(file, destination)` raises
  for a given (host, file) pair;
* `ok : α → String → Bool` — whether `host.run(cmd)` succeeds on a host;
* `closeFails : α → Bool` — whether `host.close()` raises;
* `reachable : String → Bool` — whether opening a session to a host works.

Python exception propagation is made explicit: a function that can raise
returns, besides its log of performed effects, an `Option` holding the
raised exception (the unit of work whose remote call raised), or an
`Except` value.  `asyncio.gather` with its default
`return_exceptions=False` is modelled by `gather`: every launched task
runs to completion (gather does not cancel siblings), and the exception
propagated to the awaiter is that of a single failed task — determinised
here as the first failing task in launch order.
-/

namespace EC2Manager

/-- The error taxonomy of the spec, as abstract names for the Python
exceptions the code raises: `config` and `credential` for the two
`ValueError`s of `connect_hosts`, `connection` for a failure of the
`uname -a` connectivity check, `invalidState` for the `TypeError` raised
when an operation iterates `self.hosts` after `close` set it to `None`. -/
inductive Err where
  | config
  | credential
  | connection
  | invalidState
deriving DecidableEq, Repr

/-- Inner loop of `update_files`: `for file in files: host.put(file, destination)`.
Returns the list of (host, file) puts that succeeded, and the first
(host, file) pair whose `put` raised, if any; a raised exception aborts
the remaining files of this host. -/
def put_files_on_host (fails : α → β → Bool) (host : α) : List β → List (α × β) × Option (α × β)
  | [] => ([], none)
  | f :: fs =>
    if fails host f then
      ([], some (host, f))
    else
      let r := put_files_on_host fails host fs
      ((host, f) :: r.1, r.2)

/-- `HostAgent.update_files`: nested loop, hosts outer, files inner, with
no exception handling — the first raising `put` propagates immediately.
Returns the successful puts and the raised (host, file) pair, if any. -/
def update_files (fails : α → β → Bool) : List α → List β → List (α × β) × Option (α × β)
  | [], _ => ([], none)
  | h :: hs, files =>
    match put_files_on_host fails h files with
    | (done, some e) => (done, some e)
    | (done, none) =>
      let r := update_files fails hs files
      (done ++ r.1, r.2)

/-- `HostAgent.run_command`: `for host in self.hosts: host.run(command)`,
with no exception handling.  Returns the list of (host, command)
dispatches actually issued (the failing dispatch included — its
`host.run` was called and raised) and the dispatch that raised, if any. -/
def run_command (ok : α → String → Bool) (cmd : String) : List α → List (α × String) × Option (α × String)
  | [] => ([], none)
  | h :: hs =>
    if ok h cmd then
      let r := run_command ok cmd hs
      ((h, cmd) :: r.1, r.2)
    else
      ([(h, cmd)], some (h, cmd))

/-- Result of `asyncio.gather(*tasks)` over a list of independent tasks:
`ran` are the tasks launched and run to completion, `succeeded` those that
completed without an exception, `raised` the exception propagated to the
awaiter. -/
structure GatherResult (α : Type) where
  ran : List α
  succeeded : List α
  raised : Option α
deriving DecidableEq, Repr

/-- `asyncio.gather` with the default `return_exceptions=False`: all
tasks are scheduled before any result is awaited, a sibling failure does
not cancel them (per the asyncio documentation, other awaitables are not
cancelled and continue to run), and the exception propagated to the
awaiter is that of a single failed task — determinised as the first
failing task in launch order. -/
def gather (fails : α → Bool) (tasks : List α) : GatherResult α :=
  ⟨tasks, tasks.filter (fun t => !(fails t)), tasks.find? fails⟩

/-- The task list built by `update_files_async` before gathering:
one `put_on_host` coroutine per (host, file) pair, hosts outer, files
inner. -/
def tasksOf (hosts : List α) (files : List β) : List (α × β) :=
  hosts.flatMap (fun h => files.map (fun f => (h, f)))

/-- `HostAgent.update_files_async`: builds one task per (host, file)
pair, then `await asyncio.gather(*tasks)`. -/
def update_files_async (fails : α → β → Bool) (hosts : List α) (files : List β) :
    GatherResult (α × β) :=
  gather (fun p => fails p.1 p.2) (tasksOf hosts files)

/-- `HostAgent.run_command_async`: one `run_on_host` task per host (the
task body runs the enclosing `command` — its `cmd` parameter is shadowed,
with the same value at every call site), then `await asyncio.gather(*tasks)`. -/
def run_command_async (ok : α → String → Bool) (cmd : String) (hosts : List α) :
    GatherResult (α × String) :=
  gather (fun p => !(ok p.1 p.2)) (hosts.map (fun h => (h, cmd)))

/-- The state `HostAgent` keeps: `self.hosts` is either a live host
group or `None` (after `close`). -/
structure HostAgent (α : Type) where
  hosts : Option (List α)
deriving DecidableEq, Repr

/-- `HostAgent.close`: if `self.hosts` is truthy, calls `host.close()`
on every host, each wrapped in `try/except Exception` that only prints
the error; finally sets `self.hosts = None`.  Returns the new state, the
list of hosts whose `close` was attempted, and the list of hosts whose
`close` raised (logged, never re-raised — the function itself cannot
raise). -/
def close (closeFails : α → Bool) (a : HostAgent α) : HostAgent α × List α × List α :=
  match a.hosts with
  | none => (⟨none⟩, [], [])
  | some hs => (⟨none⟩, hs, hs.filter closeFails)

/-- `update_files` called through the agent: iterating `self.hosts` when
it is `None` raises (`TypeError` in Python — the spec's
`InvalidStateError`). -/
def agent_update_files (fails : α → β → Bool) (files : List β) (a : HostAgent α) :
    Except Err (List (α × β) × Option (α × β)) :=
  match a.hosts with
  | none => .error .invalidState
  | some hs => .ok (update_files fails hs files)

/-- `update_files_async` called through the agent: the task-building loop
iterates `self.hosts`, raising when it is `None`. -/
def agent_update_files_async (fails : α → β → Bool) (files : List β) (a : HostAgent α) :
    Except Err (GatherResult (α × β)) :=
  match a.hosts with
  | none => .error .invalidState
  | some hs => .ok (update_files_async fails hs files)

/-- `run_command` called through the agent. -/
def agent_run_command (ok : α → String → Bool) (cmd : String) (a : HostAgent α) :
    Except Err (List (α × String) × Option (α × String)) :=
  match a.hosts with
  | none => .error .invalidState
  | some hs => .ok (run_command ok cmd hs)

/-- `run_command_async` called through the agent: the task list
comprehension iterates `self.hosts`, raising when it is `None`. -/
def agent_run_command_async (ok : α → String → Bool) (cmd : String) (a : HostAgent α) :
    Except Err (GatherResult (α × String)) :=
  match a.hosts with
  | none => .error .invalidState
  | some hs => .ok (run_command_async ok cmd hs)

/-- Python `str.split(sep)` for a one-character separator, on the
character list of the string: always yields at least one (possibly
empty) field. -/
def pySplit (sep : Char) : List Char → List (List Char)
  | [] => [[]]
  | c :: cs =>
    match pySplit sep cs with
    | [] => [[]]
    | g :: gs => if c = sep then [] :: g :: gs else (c :: g) :: gs

/-- Python `s.split(',')` on a `String`. -/
def pySplitStr (sep : Char) (s : String) : List String :=
  (pySplit sep s.data).map (fun l => ⟨l⟩)

/-- The configuration environment read by `connect_hosts`:
`os.getenv('EC2_HOSTS', '')`, `os.getenv('EC2_PEM_FILE', '')` and the
filesystem predicate `os.path.exists`. -/
structure Env where
  ec2Hosts : String
  ec2PemFile : String
  fileExists : String → Bool

/-- `get_hosts_from_env`: raises `ValueError` (spec: `ConfigError`) when
`EC2_HOSTS` is unset or empty, otherwise splits it on commas. -/
def get_hosts_from_env (env : Env) : Except Err (List String) :=
  if env.ec2Hosts = "" then .error .config
  else .ok (pySplitStr ',' env.ec2Hosts)

/-- `connect_hosts`: reads the host list (raising `config` when empty,
with a dead re-check kept from the source), checks that the pem file
exists (raising `credential` otherwise), then builds the `SerialGroup`
(lazy — no connection yet) and runs the `uname -a` connectivity check,
which opens one session per host.  Returns the outcome together with the
number of hosts a connection was attempted to. -/
def connect_hosts (reachable : String → Bool) (env : Env) : Except Err (List String) × Nat :=
  match get_hosts_from_env env with
  | .error e => (.error e, 0)
  | .ok host_urls =>
    if host_urls = [] then
      (.error .config, 0)
    else if !(env.fileExists env.ec2PemFile) then
      (.error .credential, 0)
    else if host_urls.all reachable then
      (.ok host_urls, host_urls.length)
    else
      (.error .connection, host_urls.length)

/-- `HostAgent.__init__(hosts=None)`: stores the argument, and when it is
falsy (`None` or an empty collection) replaces it by `connect_hosts()`.
Returns the constructed agent (or the construction error) and the number
of connection attempts made. -/
def initHostAgent (reachable : String → Bool) (env : Env) (hosts : Option (List String)) :
    Except Err (HostAgent String) × Nat :=
  match hosts with
  | some hs =>
    if hs.isEmpty then
      let r := connect_hosts reachable env
      (r.1.map (fun u => ⟨some u⟩), r.2)
    else
      (.ok ⟨some hs⟩, 0)
  | none =>
    let r := connect_hosts reachable env
    (r.1.map (fun u => ⟨some u⟩), r.2)

/-- The `run` CLI command: `cmd = '; '.join(command)`, then either
`run_command_async` (is-async) or `run_command` on the agent's hosts.
Returns the (host, command) dispatches issued and the raised dispatch,
if any. -/
def cli_run (ok : α → String → Bool) (hosts : List α) (parts : List String) (isAsync : Bool) :
    List (α × String) × Option (α × String) :=
  let cmd := String.intercalate "; " parts
  if isAsync then
    let r := run_command_async ok cmd hosts
    (r.ran, r.raised)
  else
    run_command ok cmd hosts

theorem put_files_all_ok (fails : α → β → Bool) (h : α) :
    ∀ files : List β, (∀ f ∈ files, fails h f = false) →
      put_files_on_host fails h files = (files.map (fun f => (h, f)), none)
  | [], _ => rfl
  | f :: fs, hok => by
    have h1 : fails h f = false := hok f (by simp)
    have h2 := put_files_all_ok fails h fs (fun g hg => hok g (by simp [hg]))
    simp [put_files_on_host, h1, h2]

theorem put_files_first_fail (fails : α → β → Bool) (h : α) (fb : β) (fpost : List β) :
    ∀ fpre : List β, (∀ f ∈ fpre, fails h f = false) → fails h fb = true →
      put_files_on_host fails h (fpre ++ fb :: fpost) =
        (fpre.map (fun f => (h, f)), some (h, fb))
  | [], _, hfb => by simp [put_files_on_host, hfb]
  | f :: fs, hok, hfb => by
    have h1 : fails h f = false := hok f (by simp)
    have h2 := put_files_first_fail fails h fb fpost fs (fun g hg => hok g (by simp [hg])) hfb
    simp [put_files_on_host, h1, h2]

/-- C1 (amended): in sequential `update_files`, the first raising copy
propagates immediately: hosts before the failing host receive all files,
the failing host receives only the files preceding the failing one, the
hosts after it receive nothing, and the raised error is the single
exception of the first failing (host, file) pair — no aggregation. -/
theorem update_files_seq_abort (fails : α → β → Bool) (b : α) (post : List α)
    (fpre fpost : List β) (fb : β) :
    ∀ pre : List α,
      (∀ h ∈ pre, ∀ f ∈ fpre ++ fb :: fpost, fails h f = false) →
      (∀ f ∈ fpre, fails b f = false) → fails b fb = true →
      update_files fails (pre ++ b :: post) (fpre ++ fb :: fpost) =
        (pre.flatMap (fun h => (fpre ++ fb :: fpost).map (fun f => (h, f)))
           ++ fpre.map (fun f => (b, f)),
         some (b, fb))
  | [], _, hfpre, hfb => by
    simp [update_files, put_files_first_fail fails b fb fpost fpre hfpre hfb]
  | h :: hs, hpre, hfpre, hfb => by
    have h1 := put_files_all_ok fails h (fpre ++ fb :: fpost) (hpre h (by simp))
    have h2 := update_files_seq_abort fails b post fpre fpost fb hs
      (fun g hg f hf => hpre g (by simp [hg]) f hf) hfpre hfb
    simp [update_files, h1, h2]

/-- The failure oracle of the C1 scenario: every copy to host 2 raises,
copies to every other host succeed. -/
def seqFailHost2 : Nat → Nat → Bool := fun h _ => h == 2

/-- C1 (counterexample): hosts `[1, 2, 3]`, files `[10, 20]`, exactly
host 2's copies fail.  Host 1 receives both files, but host 3 receives
nothing — contradicting "every other host still receives all files" —
and the error is the single exception of the pair `(2, 10)`, not an
aggregate of per-host failures. -/
theorem update_files_no_failure_isolation :
    (update_files seqFailHost2 [1, 2, 3] [10, 20]).1 = [(1, 10), (1, 20)] ∧
    (3, 10) ∉ (update_files seqFailHost2 [1, 2, 3] [10, 20]).1 ∧
    (update_files seqFailHost2 [1, 2, 3] [10, 20]).2 = some (2, 10) := by
  decide

/-- C1 (witness): the amended theorem applied to the concrete scenario
hosts `[1, 2, 3]`, files `[10, 20]`, host 2 failing on its first file. -/
theorem update_files_seq_abort_witness :
    update_files seqFailHost2 ([1] ++ 2 :: [3]) ([] ++ 10 :: [20]) =
      ([(1, 10), (1, 20)], some (2, 10)) := by
  have h := update_files_seq_abort seqFailHost2 2 [3] [] [20] 10 [1]
    (by decide) (by decide) (by decide)
  simpa using h

theorem run_command_all_ok (ok : α → String → Bool) (cmd : String) :
    ∀ hosts : List α, (∀ h ∈ hosts, ok h cmd = true) →
      run_command ok cmd hosts = (hosts.map (fun h => (h, cmd)), none)
  | [], _ => rfl
  | h :: hs, hok => by
    have h1 : ok h cmd = true := hok h (by simp)
    have h2 := run_command_all_ok ok cmd hs (fun g hg => hok g (by simp [hg]))
    simp [run_command, h1, h2]

/-- C2 (amended): in sequential `run_command`, the first failing
`host.run` propagates immediately: the hosts before it ran the command,
the hosts after it are never dispatched, and the raised error is the
single exception of the first failing host — no aggregation. -/
theorem run_command_seq_abort (ok : α → String → Bool) (cmd : String) (b : α) (post : List α) :
    ∀ pre : List α, (∀ h ∈ pre, ok h cmd = true) → ok b cmd = false →
      run_command ok cmd (pre ++ b :: post) =
        (pre.map (fun h => (h, cmd)) ++ [(b, cmd)], some (b, cmd))
  | [], _, hb => by simp [run_command, hb]
  | h :: hs, hok, hb => by
    have h1 : ok h cmd = true := hok h (by simp)
    have h2 := run_command_seq_abort ok cmd b post hs (fun g hg => hok g (by simp [hg])) hb
    simp [run_command, h1, h2]

/-- The success oracle of the C2 scenario: host 1's run raises, every
other host's run succeeds. -/
def seqCmdFailHost1 : Nat → String → Bool := fun h _ => h != 1

/-- C2 (counterexample): hosts `[1, 2]`, host 1's run fails.  Host 2 is
never dispatched the command — contradicting "continues to the remaining
hosts" — and the error is the single exception of host 1, not an
aggregate. -/
theorem run_command_no_continue :
    run_command seqCmdFailHost1 "cmd" [1, 2] = ([(1, "cmd")], some (1, "cmd")) ∧
    (2, "cmd") ∉ (run_command seqCmdFailHost1 "cmd" [1, 2]).1 := by
  decide

/-- C2 (witness): the amended theorem applied to hosts `[1, 2, 3]` with
host 2 failing. -/
theorem run_command_seq_abort_witness :
    run_command (fun h _ => h != 2) "cmd" ([1] ++ 2 :: [3]) =
      ([(1, "cmd"), (2, "cmd")], some (2, "cmd")) := by
  have h := run_command_seq_abort (fun h _ => (h : Nat) != 2) "cmd" 2 [3] [1]
    (by decide) (by decide)
  simpa using h

theorem tasksOf_cons (h : α) (hs : List α) (files : List β) :
    tasksOf (h :: hs) files = files.map (fun f => (h, f)) ++ tasksOf hs files := rfl

theorem tasksOf_length (hosts : List α) (files : List β) :
    (tasksOf hosts files).length = hosts.length * files.length := by
  induction hosts with
  | nil => simp [tasksOf]
  | cons h hs ih =>
    rw [tasksOf_cons, List.length_append, List.length_map, ih, List.length_cons, Nat.succ_mul]
    omega

theorem mem_tasksOf {hosts : List α} {files : List β} {p : α × β} :
    p ∈ tasksOf hosts files ↔ p.1 ∈ hosts ∧ p.2 ∈ files := by
  rcases p with ⟨a, b⟩
  simp [tasksOf]

/-- C3 (amended): `update_files_async` builds exactly one task per
(host, file) pair (all launched before any result is awaited), and every
task runs to completion — a pair whose put succeeds lands in `succeeded`
even when a sibling fails, and is not rolled back.  The call succeeds
iff no pair fails; when it fails, what propagates is the single
exception of one failed pair, not an aggregate listing every failed
pair. -/
theorem update_files_async_behavior (fails : α → β → Bool) (hosts : List α) (files : List β) :
    (update_files_async fails hosts files).ran = tasksOf hosts files ∧
    (tasksOf hosts files).length = hosts.length * files.length ∧
    (∀ h ∈ hosts, ∀ f ∈ files, fails h f = false →
      (h, f) ∈ (update_files_async fails hosts files).succeeded) ∧
    ((update_files_async fails hosts files).raised = none ↔
      ∀ h ∈ hosts, ∀ f ∈ files, fails h f = false) ∧
    (∀ p, (update_files_async fails hosts files).raised = some p →
      p.1 ∈ hosts ∧ p.2 ∈ files ∧ fails p.1 p.2 = true) := by
  refine ⟨rfl, tasksOf_length hosts files, ?_, ?_, ?_⟩
  · intro h hh f hf hok
    simp [update_files_async, gather, List.mem_filter, mem_tasksOf, hh, hf, hok]
  · simp only [update_files_async, gather, List.find?_eq_none]
    constructor
    · intro hn h hh f hf
      have h2 := hn (h, f) (mem_tasksOf.mpr ⟨hh, hf⟩)
      simpa using h2
    · intro hall p hp
      rcases mem_tasksOf.mp hp with ⟨h1, h2⟩
      simp [hall p.1 h1 p.2 h2]
  · intro p hp
    simp only [update_files_async, gather] at hp
    have h1 := List.mem_of_find?_eq_some hp
    have h2 := List.find?_some hp
    rcases mem_tasksOf.mp h1 with ⟨ha, hb⟩
    exact ⟨ha, hb, h2⟩

/-- Every put fails in the C3 counterexample scenario. -/
def allPutsFail : Nat → Nat → Bool := fun _ _ => true

/-- C3 (counterexample): hosts `[1, 2]`, one file `10`, both (host, file)
tasks fail.  The overall call propagates only the exception of the
single pair `(1, 10)`; the equally-failed pair `(2, 10)` is not listed —
contradicting "an aggregate error listing every failed pair". -/
theorem update_files_async_single_exception :
    (update_files_async allPutsFail [1, 2] [10]).raised = some (1, 10) ∧
    allPutsFail 2 10 = true ∧
    ((2, 10) : Nat × Nat) ≠ (1, 10) := by
  decide

/-- Copies to host 2 fail in the C3 witness scenario. -/
def asyncFailHost2 : Nat → Nat → Bool := fun h _ => h == 2

/-- C3 (witness): the amended theorem applied to hosts `[1, 2]` and file
`10` with host 2 failing: the successful pair `(1, 10)` completes and is
kept. -/
theorem update_files_async_behavior_witness :
    (1, 10) ∈ (update_files_async asyncFailHost2 [1, 2] [10]).succeeded :=
  (update_files_async_behavior asyncFailHost2 [1, 2] [10]).2.2.1 1 (by decide) 10
    (by decide) (by decide)

/-- C4 (confirmed): in `run_command_async` over three hosts where exactly
one host's command fails, all three tasks are launched and run to
completion (`gather` cancels nothing), each of the other two hosts'
commands completes successfully, and the error propagated to the caller
identifies exactly the one failing host. -/
theorem run_command_async_single_failure (ok : α → String → Bool) (cmd : String)
    (a b c x : α) (hx : x = a ∨ x = b ∨ x = c) (hfx : ok x cmd = false)
    (hothers : ∀ h, (h = a ∨ h = b ∨ h = c) → h ≠ x → ok h cmd = true) :
    (run_command_async ok cmd [a, b, c]).ran = [(a, cmd), (b, cmd), (c, cmd)] ∧
    (∀ h, (h = a ∨ h = b ∨ h = c) → h ≠ x →
      (h, cmd) ∈ (run_command_async ok cmd [a, b, c]).succeeded) ∧
    (run_command_async ok cmd [a, b, c]).raised = some (x, cmd) := by
  refine ⟨rfl, ?_, ?_⟩
  · intro h hh hne
    have hok := hothers h hh hne
    rcases hh with rfl | rfl | rfl <;>
      simp [run_command_async, gather, List.mem_filter, hok]
  · by_cases ha : ok a cmd = true
    · by_cases hb : ok b cmd = true
      · by_cases hc : ok c cmd = true
        · exfalso
          rcases hx with rfl | rfl | rfl <;> simp_all
        · have hcx : c = x := by
            by_contra hne
            exact absurd (hothers c (by simp) hne) hc
          subst hcx
          simp [run_command_async, gather, List.find?, ha, hb, hfx]
      · have hbx : b = x := by
          by_contra hne
          exact absurd (hothers b (by simp) hne) hb
        subst hbx
        simp [run_command_async, gather, List.find?, ha, hfx]
    · have hax : a = x := by
        by_contra hne
        exact absurd (hothers a (by simp) hne) ha
      subst hax
      simp [run_command_async, gather, List.find?, hfx]

/-- Host 2's command fails in the C4 witness scenario. -/
def cmdOkExcept2 : Nat → String → Bool := fun h _ => h != 2

/-- C4 (witness): the theorem applied to hosts `[1, 2, 3]` with host 2
failing: all three dispatches run, and the raised error names host 2. -/
theorem run_command_async_single_failure_witness :
    (run_command_async cmdOkExcept2 "cmd" [1, 2, 3]).ran =
      [(1, "cmd"), (2, "cmd"), (3, "cmd")] ∧
    (run_command_async cmdOkExcept2 "cmd" [1, 2, 3]).raised = some (2, "cmd") := by
  have h := run_command_async_single_failure cmdOkExcept2 "cmd" 1 2 3 2
    (Or.inr (Or.inl rfl)) (by decide)
    (fun h hh hne => by
      rcases hh with rfl | rfl | rfl
      · decide
      · exact absurd rfl hne
      · decide)
  exact ⟨h.1, h.2.2⟩

/-- C5 (confirmed): after `close`, `self.hosts` is `None`, so every
operation — `update_files`, `update_files_async`, `run_command`,
`run_command_async` — fails with the invalid-state error (the `TypeError`
raised by iterating `None`, the spec's `InvalidStateError`), whatever
state the agent was in before. -/
theorem ops_after_close_fail (closeFails : α → Bool) (fails : α → β → Bool)
    (ok : α → String → Bool) (cmd : String) (files : List β) (a : HostAgent α) :
    agent_update_files fails files (close closeFails a).1 = .error .invalidState ∧
    agent_update_files_async fails files (close closeFails a).1 = .error .invalidState ∧
    agent_run_command ok cmd (close closeFails a).1 = .error .invalidState ∧
    agent_run_command_async ok cmd (close closeFails a).1 = .error .invalidState := by
  rcases a with ⟨_ | hs⟩ <;>
    simp [close, agent_update_files, agent_update_files_async, agent_run_command,
      agent_run_command_async]

/-- C6 (confirmed): `close` attempts each open session's `close` exactly
once (the attempted list is the session list itself), logs exactly the
sessions whose `close` raised, never raises itself (it is a total
function into states, with no error outcome), always clears `self.hosts`
to `None`, and a second `close` is a no-op: no attempts, no logs, same
cleared state. -/
theorem close_contract (closeFails : α → Bool) (a : HostAgent α) :
    (close closeFails a).1.hosts = none ∧
    (close closeFails a).2.1 = a.hosts.getD [] ∧
    (close closeFails a).2.2 = (a.hosts.getD []).filter closeFails ∧
    close closeFails ((close closeFails a).1) = (⟨none⟩, [], []) := by
  rcases a with ⟨_ | hs⟩ <;> simp [close]

/-- C7 (confirmed): constructing the agent with no hosts argument when
the configured `EC2_HOSTS` is empty fails with the config error, with
zero connection attempts; `connect_hosts` itself fails the same way. -/
theorem construct_empty_hosts (reachable : String → Bool) (env : Env)
    (h : env.ec2Hosts = "") :
    initHostAgent reachable env none = (.error .config, 0) ∧
    connect_hosts reachable env = (.error .config, 0) := by
  have hc : connect_hosts reachable env = (.error .config, 0) := by
    simp [connect_hosts, get_hosts_from_env, h]
  exact ⟨by simp [initHostAgent, hc, Except.map], hc⟩

/-- C7 (witness): the theorem at a concrete environment with `EC2_HOSTS`
unset. -/
theorem construct_empty_hosts_witness :
    initHostAgent (fun _ => true) ⟨"", "key.pem", fun _ => true⟩ none =
      (.error .config, 0) :=
  (construct_empty_hosts (fun _ => true) ⟨"", "key.pem", fun _ => true⟩ rfl).1

theorem pySplit_ne_nil (sep : Char) (l : List Char) : pySplit sep l ≠ [] := by
  cases l with
  | nil => simp [pySplit]
  | cons c cs =>
    rcases hp : pySplit sep cs with _ | ⟨g, gs⟩
    · simp [pySplit, hp]
    · simp only [pySplit, hp]
      split <;> simp

/-- C8 (confirmed): when `EC2_HOSTS` is non-empty but the pem file does
not exist, construction fails with the credential error after zero
connection attempts — the existence check precedes the `SerialGroup`
construction and the `uname -a` connectivity check. -/
theorem construct_missing_pem (reachable : String → Bool) (env : Env)
    (h1 : env.ec2Hosts ≠ "") (h2 : env.fileExists env.ec2PemFile = false) :
    initHostAgent reachable env none = (.error .credential, 0) ∧
    connect_hosts reachable env = (.error .credential, 0) := by
  have hne : pySplitStr ',' env.ec2Hosts ≠ [] := by
    simp only [pySplitStr, ne_eq, List.map_eq_nil_iff]
    exact pySplit_ne_nil ',' env.ec2Hosts.data
  have hc : connect_hosts reachable env = (.error .credential, 0) := by
    simp [connect_hosts, get_hosts_from_env, h1, h2, hne]
  exact ⟨by simp [initHostAgent, hc, Except.map], hc⟩

/-- C8 (witness): the theorem at a concrete environment with two hosts
configured and a missing pem file. -/
theorem construct_missing_pem_witness :
    initHostAgent (fun _ => true) ⟨"a,b", "nokey", fun _ => false⟩ none =
      (.error .credential, 0) :=
  (construct_missing_pem (fun _ => true) ⟨"a,b", "nokey", fun _ => false⟩
    (by decide) rfl).1

theorem run_command_dispatch_cmd (ok : α → String → Bool) (cmd : String) (hosts : List α) :
    ∀ p ∈ (run_command ok cmd hosts).1, p.2 = cmd := by
  induction hosts with
  | nil =>
    intro p hp
    simp [run_command] at hp
  | cons h hs ih =>
    intro p hp
    by_cases hok : ok h cmd = true
    · simp only [run_command, hok, if_true, List.mem_cons] at hp
      rcases hp with hp | hp
      · simp [hp]
      · exact ih p hp
    · simp only [run_command, hok, if_false, Bool.false_eq_true, List.mem_singleton] at hp
      simp [hp]

/-- C9 (confirmed): the `run` CLI command joins the supplied fragments
with the separator `"; "` into one string; every dispatch issued, in
either mode, carries exactly that joined string; in concurrent mode
every host is dispatched it, and in sequential mode every host is
dispatched it whenever no host fails. -/
theorem cli_run_joined_command (ok : α → String → Bool) (hosts : List α)
    (parts : List String) (isAsync : Bool) :
    (∀ p ∈ (cli_run ok hosts parts isAsync).1, p.2 = String.intercalate "; " parts) ∧
    (cli_run ok hosts parts true).1 =
      hosts.map (fun h => (h, String.intercalate "; " parts)) ∧
    ((∀ h ∈ hosts, ok h (String.intercalate "; " parts) = true) →
      (cli_run ok hosts parts false).1 =
        hosts.map (fun h => (h, String.intercalate "; " parts))) := by
    refine ⟨?_, ?_, ?_⟩
    · intro p hp
      cases isAsync with
      | true =>
        have hp2 : p ∈ hosts.map (fun h2 => (h2, String.intercalate "; " parts)) := hp
        rcases List.mem_map.mp hp2 with ⟨h2, _, rfl⟩
        rfl
      | false =>
        exact run_command_dispatch_cmd ok (String.intercalate "; " parts) hosts p hp
    · rfl
    · intro hall
      have h := run_command_all_ok ok (String.intercalate "; " parts) hosts hall
      show (run_command ok (String.intercalate "; " parts) hosts).1 = _
      rw [h]

/-- Every run succeeds in the C9 witness scenario. -/
def allRunsOk : Nat → String → Bool := fun _ _ => true

/-- C9 (witness): the theorem applied to hosts `[1, 2]` and the fragment
list `["echo a", "echo b"]` in sequential mode: both hosts are
dispatched the single joined string `"echo a; echo b"`. -/
theorem cli_run_joined_command_witness :
    (cli_run allRunsOk [1, 2] ["echo a", "echo b"] false).1 =
      [(1, "echo a; echo b"), (2, "echo a; echo b")] := by
  have h := (cli_run_joined_command allRunsOk [1, 2] ["echo a", "echo b"] false).2.2
    (by decide)
  rw [h]
  rfl

/-- C10 (confirmed): `HostAgent.__init__` treats a non-`None` but empty
hosts collection exactly like `None` — Python's falsy test — so it is
ignored and the session group is built from the environment; a non-empty
collection is stored as given, with no connection attempt. -/
theorem init_falsy_hosts (reachable : String → Bool) (env : Env) (hs : List String) :
    initHostAgent reachable env (some []) = initHostAgent reachable env none ∧
    (hs ≠ [] → initHostAgent reachable env (some hs) = (.ok ⟨some hs⟩, 0)) := by
  constructor
  · simp [initHostAgent]
  · intro h
    rcases hs with _ | ⟨x, xs⟩
    · exact absurd rfl h
    · simp [initHostAgent]

/-- C10 (witness): the theorem at a concrete environment and the
one-host list `["h1"]`. -/
theorem init_falsy_hosts_witness :
    initHostAgent (fun _ => true) ⟨"", "k", fun _ => true⟩ (some ["h1"]) =
      (.ok ⟨some ["h1"]⟩, 0) :=
  (init_falsy_hosts (fun _ => true) ⟨"", "k", fun _ => true⟩ ["h1"]).2 (by decide)

end EC2Manager
